import Mathlib

/-!
Shallow embedding of `src/index.ts` of `ios-simulator-mcp`: an MCP server
exposing five iOS-simulator tool operations and an in-memory screenshot
registry with per-screenshot resource handles.

External effects (child-process execution via `execAsync`, the file system,
the clock `Date.now()`, environment variables) are modelled as explicit
oracle records passed to each handler.  Each handler returns its response
envelope together with the updated server state and the list of external
effects it performed, in program order.  Image bytes are represented by
their base64 encoding (the form in which the program stores them).
-/

namespace IosSimulatorMcp

/-! ### JS `Map` model

`screenshots` is a JS `Map<string, string>`: insertion-ordered entries with
unique keys; `set` on an existing key replaces the value in place, `delete`
removes the entry, `keys()` enumerates in insertion order. -/

def mapGet {α : Type} : List (String × α) → String → Option α
  | [], _ => none
  | (k, v) :: rest, key => if k = key then some v else mapGet rest key

def mapSet {α : Type} : List (String × α) → String → α → List (String × α)
  | [], key, val => [(key, val)]
  | (k, v) :: rest, key, val =>
      if k = key then (k, val) :: rest else (k, v) :: mapSet rest key val

def mapDelete {α : Type} : List (String × α) → String → List (String × α)
  | [], _ => []
  | (k, v) :: rest, key => if k = key then rest else (k, v) :: mapDelete rest key

def keys {α : Type} (m : List (String × α)) : List String := m.map Prod.fst

def mapHas {α : Type} (m : List (String × α)) (key : String) : Bool :=
  (mapGet m key).isSome

/-! ### Responses, effects, server state -/

/-- One item of an MCP tool response: `{ type: "text", text }` or
`{ type: "image", data, mimeType }`. -/
inductive ContentItem
  | text (s : String)
  | image (data : String) (mimeType : String)
  deriving DecidableEq, Repr

/-- A tool response envelope: `{ content: [...] }`. -/
structure Response where
  content : List ContentItem
  deriving DecidableEq, Repr

/-- External effects a handler performs, in program order. -/
inductive Effect
  | exec (cmd : String)
  | mkdirRecursive (dir : String)
  | readFile (path : String)
  deriving DecidableEq, Repr

/-- A registered resource handler.  A per-screenshot handler is the closure
created at registration time: it returns the `data` it captured and consults
nothing else.  The aggregate `screenshot://list` handler reads the current
registry key set when invoked. -/
inductive ResourceHandler
  | blob (data : String)
  | listNames
  deriving DecidableEq, Repr

structure ServerState where
  screenshots : List (String × String)
  resources : List (String × ResourceHandler)
  deriving DecidableEq, Repr

/-- Module-initialisation state: empty registry, and the aggregate
`screenshot://list` resource registered at startup (source lines 25, 52). -/
def initialState : ServerState :=
  { screenshots := [], resources := [("screenshot://list", ResourceHandler.listNames)] }

/-- `registerScreenshotResource(name, data)` (source lines 34–49): stores the
base64 data in the `screenshots` map, then registers a resource at URI
`screenshot://<name>` whose handler closes over `data`.  The map update is
translated from the source.  The resource table itself lives in the MCP SDK,
whose code is not under `src/`; it is modelled from the spec: registering a
URI creates the handle if absent, and re-registration under an existing URI
reuses the single handle, replacing its handler ("handle reused, not
duplicated"). -/
def registerScreenshotResource (name data : String) (st : ServerState) : ServerState :=
  { screenshots := mapSet st.screenshots name data
    resources := mapSet st.resources ("screenshot://" ++ name) (ResourceHandler.blob data) }

/-- What a resource read returns. -/
inductive ResourceContent
  | blob (data : String)
  | text (s : String)
  deriving DecidableEq, Repr

/-- Reading a resource URI: a per-screenshot handler returns the base64 blob
captured at its registration (source lines 38–48); the `screenshot://list`
handler joins the current registry names with newlines (source lines 52–62). -/
def readResource (st : ServerState) (uri : String) : Option ResourceContent :=
  match mapGet st.resources uri with
  | some (ResourceHandler.blob d) => some (ResourceContent.blob d)
  | some ResourceHandler.listNames =>
      some (ResourceContent.text (String.intercalate "\n" (keys st.screenshots)))
  | none => none

/-- Registry-level lookup of a screenshot's bytes by name (the spec's
`resolve(name)`; in the source this is the `screenshots` map). -/
def resolve (st : ServerState) (name : String) : Option String :=
  mapGet st.screenshots name

/-! ### `get_booted_sim_id` output parsing (source lines 68–103) -/

def listStartsWith : List Char → List Char → Bool
  | [], _ => true
  | _ :: _, [] => false
  | p :: ps, c :: cs => p == c && listStartsWith ps cs

def listContainsSub : List Char → List Char → Bool
  | [], pat => pat.isEmpty
  | c :: rest, pat => listStartsWith pat (c :: rest) || listContainsSub rest pat

/-- Substring test, as JS `String.prototype.includes`. -/
def containsStr (s pat : String) : Bool := listContainsSub s.data pat.data

/-- The character class of the regex `[-0-9A-F]`: hyphen, decimal digits,
uppercase `A`–`F` (ASCII 65–70). -/
def isUUIDChar (c : Char) : Bool :=
  c == '-' || c.isDigit || (65 ≤ c.toNat && c.toNat ≤ 70)

/-- `line.match(/\(([-0-9A-F]+)\)/)` (source line 77): scan left to right for
the first `(`…`)` group whose content is a nonempty run of UUID characters;
return that content.  On a failed attempt the scan resumes one character
after the `(`, exactly as the regex engine does. -/
def findUUIDGroup : List Char → Option String
  | [] => none
  | c :: rest =>
      if c = '(' then
        let run := rest.takeWhile isUUIDChar
        match rest.drop run.length with
        | ')' :: _ => if run.isEmpty then findUUIDGroup rest else some (String.mk run)
        | _ => findUUIDGroup rest
      else findUUIDGroup rest

/-- `line.split("(")[0]` (source line 80): the text before the first `(`,
or the whole line when it has none. -/
def beforeFirstParen (line : String) : String :=
  String.mk (line.data.takeWhile (fun c => !(c == '(')))

/-- JS `s.split("\n")` on the character list: segments between newline
separators, empty segments preserved (`"" → [""]`, trailing separator yields
a trailing empty segment). -/
def splitOnNewline : List Char → List String
  | [] => [""]
  | c :: rest =>
      let r := splitOnNewline rest
      if c = '\n' then "" :: r
      else
        match r with
        | [] => [String.mk [c]]
        | s :: ss => String.mk (c :: s.data) :: ss

/-- `stdout.split("\n")` (source line 73). -/
def splitLines (s : String) : List String := splitOnNewline s.data

/-- JS `String.prototype.trim`: strip whitespace from both ends. -/
def jsTrim (s : String) : String :=
  String.mk (((s.data.dropWhile Char.isWhitespace).reverse.dropWhile
    Char.isWhitespace).reverse)

/-- The body of the scanning loop for a single line (source lines 74–90):
a line yields a result exactly when it contains `"Booted"` and the UUID
regex matches; the result text carries the trimmed device name and the id. -/
def bootedLineResult (line : String) : Option String :=
  if containsStr line "Booted" then
    match findUUIDGroup line.data with
    | some deviceId =>
        some ("Booted Simulator: " ++ jsTrim (beforeFirstParen line) ++ "\nUUID: " ++ deviceId)
    | none => none
  else none

/-- The `for (const line of lines)` loop: first line with a result wins. -/
def scanLines : List String → Option String
  | [] => none
  | line :: rest =>
      match bootedLineResult line with
      | some r => some r
      | none => scanLines rest

def listDevicesCmd : String := "xcrun simctl list devices"

/-- Tool `get_booted_sim_id` (source lines 68–103).  The oracle `execResult`
is the outcome of `execAsync("xcrun simctl list devices")`: `ok stdout`, or
`error msg` carrying the caught error's message.  The handler touches no
server state. -/
def get_booted_sim_id (execResult : Except String String) : Response × List Effect :=
  match execResult with
  | Except.error msg => (⟨[ContentItem.text ("Error: " ++ msg)]⟩, [Effect.exec listDevicesCmd])
  | Except.ok stdout =>
      match scanLines (splitLines stdout) with
      | some t => (⟨[ContentItem.text t]⟩, [Effect.exec listDevicesCmd])
      | none => (⟨[ContentItem.text "No booted simulator found."]⟩, [Effect.exec listDevicesCmd])

/-- Tool `get_all_simulators` (source lines 109–122). -/
def get_all_simulators (execResult : Except String String) : Response × List Effect :=
  match execResult with
  | Except.error msg => (⟨[ContentItem.text ("Error: " ++ msg)]⟩, [Effect.exec listDevicesCmd])
  | Except.ok stdout => (⟨[ContentItem.text stdout]⟩, [Effect.exec listDevicesCmd])

/-! ### Paths and configuration (source lines 14–22, 150–158) -/

/-- JS `a || b` on string-valued environment variables: the empty string is
falsy, so it falls through to the default. -/
def jsOrElse : Option String → String → String
  | some s, dflt => if s == "" then dflt else s
  | none, dflt => dflt

def joinSegs : List String → String
  | [] => ""
  | [s] => s
  | s :: rest => s ++ "/" ++ joinSegs rest

/-- Models node `path.join` on already-normalised segments: empty segments
are dropped, the rest joined with `/`; all-empty input gives `"."`. -/
def pathJoinList (xs : List String) : String :=
  let ys := xs.filter (fun s => !(s == ""))
  if ys.isEmpty then "." else joinSegs ys

/-- The process environment and working directory the program reads. -/
structure Config where
  envScreenshotDir : Option String
  home : Option String
  cwd : String

/-- Source lines 15–17:
`process.env.SCREENSHOT_RESOURCE_DIR || path.join(process.env.HOME || "",
"Downloads", "ios-simulator-screenshots")`. -/
def SCREENSHOT_RESOURCE_DIR (cfg : Config) : String :=
  jsOrElse cfg.envScreenshotDir
    (pathJoinList [jsOrElse cfg.home "", "Downloads", "ios-simulator-screenshots"])

/-- Models node `path.dirname` for paths without trailing slashes. -/
def dirname (p : String) : String :=
  match p.data.reverse.findIdx? (fun c => c == '/') with
  | none => "."
  | some ridx =>
      let idx := p.data.length - 1 - ridx
      if idx = 0 then "/" else String.mk (p.data.take idx)

/-- Models node `path.resolve` for an already-normalised path. -/
def pathResolve (cwd p : String) : String :=
  if p.data.head? = some '/' then p else pathJoinList [cwd, p]

/-! ### `take_screenshot` (source lines 131–197) -/

/-- Oracles for one `take_screenshot` invocation: `Date.now()`, whether the
output directory exists, and the outcomes of `mkdirSync`, of the capture
command, and of `readFileSync` (the latter already base64-encoded, as the
program immediately encodes the buffer). -/
structure FsEnv where
  now : Nat
  dirExists : Bool
  mkdirResult : Except String Unit
  execResult : Except String String
  readFileResult : Except String String

structure TakeArgs where
  deviceId : String
  name : Option String
  outputPath : Option String

/-- Tool `take_screenshot` (source lines 144–196), with the source's order of
operations: derive name and path, ensure the directory, run the capture
command, read the file back, register the screenshot; any failure is caught
and turned into an `Error taking screenshot: …` text envelope, leaving the
state as it was.  The name and path defaults are JS `||` (source lines 147
and 150–152): `name || \`screenshot-${Date.now()}\`` and
`outputPath || path.join(…)`, so a caller-supplied empty string is falsy and
falls through to the default, exactly like an omitted argument. -/
def take_screenshot (cfg : Config) (env : FsEnv) (args : TakeArgs) (st : ServerState) :
    Response × ServerState × List Effect :=
  let screenshotName := jsOrElse args.name ("screenshot-" ++ toString env.now)
  let actualPath :=
    jsOrElse args.outputPath (pathJoinList [SCREENSHOT_RESOURCE_DIR cfg, screenshotName ++ ".png"])
  let directory := dirname actualPath
  let dirEffects : List Effect :=
    if env.dirExists then [] else [Effect.mkdirRecursive directory]
  let mkdirOutcome : Except String Unit :=
    if env.dirExists then Except.ok () else env.mkdirResult
  match mkdirOutcome with
  | Except.error e =>
      (⟨[ContentItem.text ("Error taking screenshot: " ++ e)]⟩, st, dirEffects)
  | Except.ok _ =>
      let cmd := "xcrun simctl io " ++ args.deviceId ++ " screenshot \"" ++ actualPath ++ "\""
      match env.execResult with
      | Except.error e =>
          (⟨[ContentItem.text ("Error taking screenshot: " ++ e)]⟩, st,
           dirEffects ++ [Effect.exec cmd])
      | Except.ok _ =>
          let absolutePath := pathResolve cfg.cwd actualPath
          match env.readFileResult with
          | Except.error e =>
              (⟨[ContentItem.text ("Error taking screenshot: " ++ e)]⟩, st,
               dirEffects ++ [Effect.exec cmd, Effect.readFile actualPath])
          | Except.ok base64Data =>
              (⟨[ContentItem.text ("Screenshot saved to: " ++ absolutePath ++
                   "\nAccessible as resource: screenshot://" ++ screenshotName),
                 ContentItem.image base64Data "image/png"]⟩,
               registerScreenshotResource screenshotName base64Data st,
               dirEffects ++ [Effect.exec cmd, Effect.readFile actualPath])

/-- Tool `boot_simulator` (source lines 204–229): runs
`xcrun simctl boot <deviceId>`; either outcome leaves the state untouched. -/
def boot_simulator (deviceId : String) (execResult : Except String String)
    (st : ServerState) : Response × ServerState × List Effect :=
  let cmd := "xcrun simctl boot " ++ deviceId
  match execResult with
  | Except.ok stdout =>
      (⟨[ContentItem.text ("Successfully booted simulator with ID: " ++ deviceId ++
          "\n" ++ stdout)]⟩, st, [Effect.exec cmd])
  | Except.error e =>
      (⟨[ContentItem.text ("Error booting simulator: " ++ e)]⟩, st, [Effect.exec cmd])

/-- Tool `delete_screenshot` (source lines 236–274): removes the map entry if
present.  The handler's body performs no external-command or file-system
call, and never touches the resource table; its `try`/`catch` guards only the
infallible map operations, so the handler is total. -/
def delete_screenshot (name : String) (st : ServerState) :
    Response × ServerState × List Effect :=
  if mapHas st.screenshots name then
    (⟨[ContentItem.text ("Successfully deleted screenshot: " ++ name)]⟩,
     { st with screenshots := mapDelete st.screenshots name }, [])
  else
    (⟨[ContentItem.text ("Screenshot not found: " ++ name)]⟩, st, [])

/-! ### Reachable states: sequences of tool operations -/

/-- One tool invocation together with its external-world oracles. -/
inductive Op
  | opGetBooted (execResult : Except String String)
  | opGetAll (execResult : Except String String)
  | opTake (cfg : Config) (env : FsEnv) (args : TakeArgs)
  | opBoot (deviceId : String) (execResult : Except String String)
  | opDelete (name : String)

/-- State transition of one tool invocation (`get_booted_sim_id`,
`get_all_simulators` and `boot_simulator` read no server state). -/
def applyOp (st : ServerState) : Op → ServerState
  | Op.opGetBooted _ => st
  | Op.opGetAll _ => st
  | Op.opTake cfg env args => (take_screenshot cfg env args st).2.1
  | Op.opBoot _ _ => st
  | Op.opDelete name => (delete_screenshot name st).2.1

/-- Run a sequence of tool invocations from a given state. -/
def runOps (ops : List Op) (st : ServerState) : ServerState := ops.foldl applyOp st

/-- Whether an external operation's outcome was a success. -/
def isOkResult {α : Type} : Except String α → Bool
  | Except.ok _ => true
  | Except.error _ => false

/-- A well-formed tool response envelope: a nonempty content list headed by a
text item (every handler's response, success or failure, has this shape). -/
def wellFormedEnvelope (r : Response) : Bool :=
  match r.content with
  | ContentItem.text _ :: _ => true
  | _ => false

/-! ### Lemmas about the JS `Map` model -/

@[simp] theorem keys_nil {α : Type} : keys ([] : List (String × α)) = [] := rfl

@[simp] theorem keys_cons {α : Type} (k : String) (v : α) (rest : List (String × α)) :
    keys ((k, v) :: rest) = k :: keys rest := rfl

theorem mapGet_mapSet_self {α : Type} (m : List (String × α)) (k : String) (v : α) :
    mapGet (mapSet m k v) k = some v := by
  induction m with
  | nil => simp [mapSet, mapGet]
  | cons p rest ih =>
      obtain ⟨k2, v2⟩ := p
      by_cases h : k2 = k
      · subst h; simp [mapSet, mapGet]
      · simp [mapSet, mapGet, h, ih]

theorem mapGet_mapSet_ne {α : Type} (m : List (String × α)) {k k' : String} (v : α)
    (h : k' ≠ k) : mapGet (mapSet m k v) k' = mapGet m k' := by
  have hkk : ¬(k = k') := fun hh => h hh.symm
  induction m with
  | nil => simp [mapSet, mapGet, hkk]
  | cons p rest ih =>
      obtain ⟨k2, v2⟩ := p
      by_cases h2 : k2 = k
      · subst h2
        simp [mapSet, mapGet, hkk]
      · by_cases h3 : k2 = k'
        · subst h3; simp [mapSet, mapGet, h2]
        · simp [mapSet, mapGet, h2, h3, ih]

theorem mem_keys_of_mapGet {α : Type} {m : List (String × α)} {k : String} {v : α}
    (h : mapGet m k = some v) : k ∈ keys m := by
  induction m with
  | nil => simp [mapGet] at h
  | cons p rest ih =>
      obtain ⟨k2, v2⟩ := p
      rw [keys_cons, List.mem_cons]
      by_cases h2 : k2 = k
      · exact Or.inl h2.symm
      · simp only [mapGet] at h
        rw [if_neg h2] at h
        exact Or.inr (ih h)

theorem mapGet_eq_none_of_not_mem {α : Type} {m : List (String × α)} {k : String}
    (h : k ∉ keys m) : mapGet m k = none := by
  induction m with
  | nil => rfl
  | cons p rest ih =>
      obtain ⟨k2, v2⟩ := p
      rw [keys_cons, List.mem_cons] at h
      push_neg at h
      simp only [mapGet]
      rw [if_neg (fun hh : k2 = k => h.1 hh.symm)]
      exact ih h.2

theorem mem_keys_mapSet {α : Type} {m : List (String × α)} {k a : String} {v : α}
    (h : a ∈ keys (mapSet m k v)) : a ∈ keys m ∨ a = k := by
  induction m with
  | nil =>
      rw [mapSet, keys_cons, keys_nil, List.mem_singleton] at h
      exact Or.inr h
  | cons p rest ih =>
      obtain ⟨k2, v2⟩ := p
      rw [keys_cons, List.mem_cons]
      by_cases h2 : k2 = k
      · subst h2
        rw [mapSet, if_pos rfl, keys_cons, List.mem_cons] at h
        rcases h with h | h
        · exact Or.inl (Or.inl h)
        · exact Or.inl (Or.inr h)
      · rw [mapSet, if_neg h2, keys_cons, List.mem_cons] at h
        rcases h with h | h
        · exact Or.inl (Or.inl h)
        · rcases ih h with h3 | h3
          · exact Or.inl (Or.inr h3)
          · exact Or.inr h3

theorem nodup_keys_mapSet {α : Type} {m : List (String × α)} (k : String) (v : α)
    (h : (keys m).Nodup) : (keys (mapSet m k v)).Nodup := by
  induction m with
  | nil => simp [mapSet]
  | cons p rest ih =>
      obtain ⟨k2, v2⟩ := p
      rw [keys_cons, List.nodup_cons] at h
      by_cases h2 : k2 = k
      · subst h2
        rw [mapSet, if_pos rfl, keys_cons, List.nodup_cons]
        exact ⟨h.1, h.2⟩
      · rw [mapSet, if_neg h2, keys_cons, List.nodup_cons]
        refine ⟨?_, ih h.2⟩
        intro hmem
        rcases mem_keys_mapSet hmem with h3 | h3
        · exact h.1 h3
        · exact h2 h3

theorem mem_keys_mapDelete {α : Type} {m : List (String × α)} {k a : String}
    (h : a ∈ keys (mapDelete m k)) : a ∈ keys m := by
  induction m with
  | nil => exact h
  | cons p rest ih =>
      obtain ⟨k2, v2⟩ := p
      rw [keys_cons, List.mem_cons]
      by_cases h2 : k2 = k
      · subst h2
        rw [mapDelete, if_pos rfl] at h
        exact Or.inr h
      · rw [mapDelete, if_neg h2, keys_cons, List.mem_cons] at h
        rcases h with h | h
        · exact Or.inl h
        · exact Or.inr (ih h)

theorem nodup_keys_mapDelete {α : Type} {m : List (String × α)} (k : String)
    (h : (keys m).Nodup) : (keys (mapDelete m k)).Nodup := by
  induction m with
  | nil => simp [mapDelete]
  | cons p rest ih =>
      obtain ⟨k2, v2⟩ := p
      rw [keys_cons, List.nodup_cons] at h
      by_cases h2 : k2 = k
      · subst h2
        rw [mapDelete, if_pos rfl]
        exact h.2
      · rw [mapDelete, if_neg h2, keys_cons, List.nodup_cons]
        exact ⟨fun hmem => h.1 (mem_keys_mapDelete hmem), ih h.2⟩

theorem mapGet_mapDelete_self {α : Type} {m : List (String × α)} (k : String)
    (h : (keys m).Nodup) : mapGet (mapDelete m k) k = none := by
  induction m with
  | nil => rfl
  | cons p rest ih =>
      obtain ⟨k2, v2⟩ := p
      rw [keys_cons, List.nodup_cons] at h
      by_cases h2 : k2 = k
      · subst h2
        rw [mapDelete, if_pos rfl]
        exact mapGet_eq_none_of_not_mem h.1
      · rw [mapDelete, if_neg h2]
        simp only [mapGet]
        rw [if_neg h2]
        exact ih h.2

theorem mapGet_mapDelete_ne {α : Type} {m : List (String × α)} {k k' : String}
    (h : k' ≠ k) : mapGet (mapDelete m k) k' = mapGet m k' := by
  induction m with
  | nil => rfl
  | cons p rest ih =>
      obtain ⟨k2, v2⟩ := p
      by_cases h2 : k2 = k
      · subst h2
        rw [mapDelete, if_pos rfl]
        simp only [mapGet]
        rw [if_neg (fun hh : k2 = k' => h hh.symm)]
      · rw [mapDelete, if_neg h2]
        simp only [mapGet]
        by_cases h3 : k2 = k'
        · rw [if_pos h3, if_pos h3]
        · rw [if_neg h3, if_neg h3]
          exact ih

theorem mapHas_iff_mapGet {α : Type} {m : List (String × α)} {k : String} :
    mapHas m k = true ↔ ∃ v, mapGet m k = some v := by
  unfold mapHas
  cases h : mapGet m k <;> simp [Option.isSome]

/-- Appending distinct suffixes to the same string yields distinct strings. -/
theorem append_ne_of_ne (s : String) {a b : String} (h : a ≠ b) : s ++ a ≠ s ++ b := by
  intro hcontra
  apply h
  have hdata := congrArg String.data hcontra
  rw [String.data_append, String.data_append] at hdata
  exact String.ext (List.append_cancel_left hdata)

/-! ### The registry/resource invariant over reachable states -/

/-- Invariant carried by every reachable server state: both tables have
unique keys, and every registry entry has a matching per-name handle holding
exactly the entry's current bytes. -/
def StateInv (st : ServerState) : Prop :=
  (keys st.screenshots).Nodup ∧ (keys st.resources).Nodup ∧
    ∀ name b, mapGet st.screenshots name = some b →
      mapGet st.resources ("screenshot://" ++ name) = some (ResourceHandler.blob b)

theorem stateInv_initial : StateInv initialState := by
  refine ⟨by simp [initialState, keys], by simp [initialState, keys], ?_⟩
  intro name b h
  simp [initialState, mapGet] at h

theorem stateInv_register {st : ServerState} (name data : String) (h : StateInv st) :
    StateInv (registerScreenshotResource name data st) := by
  obtain ⟨h1, h2, h3⟩ := h
  refine ⟨nodup_keys_mapSet name data h1, nodup_keys_mapSet _ _ h2, ?_⟩
  intro n b hn
  by_cases hnn : n = name
  · subst hnn
    rw [registerScreenshotResource] at hn ⊢
    simp only at hn ⊢
    rw [mapGet_mapSet_self] at hn
    cases hn
    exact mapGet_mapSet_self _ _ _
  · rw [registerScreenshotResource] at hn ⊢
    simp only at hn ⊢
    rw [mapGet_mapSet_ne _ _ hnn] at hn
    rw [mapGet_mapSet_ne _ _ (append_ne_of_ne "screenshot://" hnn)]
    exact h3 n b hn

theorem stateInv_deleteEntry {st : ServerState} (name : String) (h : StateInv st) :
    StateInv { st with screenshots := mapDelete st.screenshots name } := by
  obtain ⟨h1, h2, h3⟩ := h
  refine ⟨nodup_keys_mapDelete name h1, h2, ?_⟩
  intro n b hn
  by_cases hnn : n = name
  · subst hnn
    simp only at hn
    rw [mapGet_mapDelete_self n h1] at hn
    cases hn
  · simp only at hn
    rw [mapGet_mapDelete_ne hnn] at hn
    exact h3 n b hn

theorem stateInv_take (cfg : Config) (env : FsEnv) (args : TakeArgs) {st : ServerState}
    (h : StateInv st) : StateInv (take_screenshot cfg env args st).2.1 := by
  unfold take_screenshot
  simp only
  split
  · exact h
  · split
    · exact h
    · split
      · exact h
      · exact stateInv_register _ _ h

theorem stateInv_deleteTool (name : String) {st : ServerState} (h : StateInv st) :
    StateInv (delete_screenshot name st).2.1 := by
  unfold delete_screenshot
  split
  · exact stateInv_deleteEntry name h
  · exact h

theorem stateInv_applyOp {st : ServerState} (op : Op) (h : StateInv st) :
    StateInv (applyOp st op) := by
  cases op with
  | opGetBooted _ => exact h
  | opGetAll _ => exact h
  | opTake cfg env args => exact stateInv_take cfg env args h
  | opBoot _ _ => exact h
  | opDelete name => exact stateInv_deleteTool name h

theorem stateInv_runOps_of (ops : List Op) :
    ∀ st : ServerState, StateInv st → StateInv (runOps ops st) := by
  induction ops with
  | nil => intro st h; exact h
  | cons op rest ih =>
      intro st h
      have : runOps (op :: rest) st = runOps rest (applyOp st op) := by
        simp [runOps, List.foldl]
      rw [this]
      exact ih _ (stateInv_applyOp op h)

theorem stateInv_runOps (ops : List Op) : StateInv (runOps ops initialState) :=
  stateInv_runOps_of ops initialState stateInv_initial

/-! ### String and path helper lemmas -/

theorem append_ne_empty_of_right {s t : String} (h : t ≠ "") : s ++ t ≠ "" := by
  intro hc
  apply h
  have hd := congrArg String.data hc
  rw [String.data_append] at hd
  exact String.ext (List.append_eq_nil.mp hd).2

theorem append_ne_empty_of_left {s t : String} (h : s ≠ "") : s ++ t ≠ "" := by
  intro hc
  apply h
  have hd := congrArg String.data hc
  rw [String.data_append] at hd
  exact String.ext (List.append_eq_nil.mp hd).1

theorem joinSegs_cons_ne_empty (s : String) (rest : List String) (h : s ≠ "") :
    joinSegs (s :: rest) ≠ "" := by
  cases rest with
  | nil => simpa [joinSegs] using h
  | cons t ts =>
      show s ++ "/" ++ joinSegs (t :: ts) ≠ ""
      exact append_ne_empty_of_left (append_ne_empty_of_right (by decide))

theorem pathJoinList_ne_empty (xs : List String) : pathJoinList xs ≠ "" := by
  unfold pathJoinList
  simp only
  cases hys : xs.filter (fun s => !(s == "")) with
  | nil => simp [hys]
  | cons s rest =>
      rw [if_neg (by simp)]
      have hs : s ∈ xs.filter (fun s => !(s == "")) := by rw [hys]; exact List.mem_cons_self s rest
      have hpred := List.of_mem_filter hs
      have hne : s ≠ "" := by
        simp only [Bool.not_eq_true'] at hpred
        exact beq_eq_false_iff_ne.mp hpred
      exact joinSegs_cons_ne_empty s rest hne

theorem resource_dir_ne_empty (cfg : Config) : SCREENSHOT_RESOURCE_DIR cfg ≠ "" := by
  unfold SCREENSHOT_RESOURCE_DIR
  cases cfg.envScreenshotDir with
  | none => exact pathJoinList_ne_empty _
  | some s =>
      by_cases hs : s == ""
      · simp only [jsOrElse, hs, if_true]
        exact pathJoinList_ne_empty _
      · simp only [jsOrElse, hs, if_false]
        exact beq_eq_false_iff_ne.mp (Bool.of_not_eq_true hs)

theorem pathJoin_two (a b : String) (ha : a ≠ "") (hb : b ≠ "") :
    pathJoinList [a, b] = a ++ "/" ++ b := by
  have ha2 : (a == "") = false := beq_eq_false_iff_ne.mpr ha
  have hb2 : (b == "") = false := beq_eq_false_iff_ne.mpr hb
  simp [pathJoinList, List.filter, ha2, hb2, joinSegs]

/-! ### Claim theorems -/

/-- C1: in every state reachable by sequences of the five tool operations,
every name present in the screenshot registry has exactly one resource handle
at URI `screenshot://<name>`, and reading that handle returns the bytes most
recently registered under that name (the entry's current bytes). -/
theorem registry_names_have_unique_current_handles (ops : List Op) (name b : String)
    (h : mapGet (runOps ops initialState).screenshots name = some b) :
    (keys (runOps ops initialState).resources).count ("screenshot://" ++ name) = 1 ∧
    readResource (runOps ops initialState) ("screenshot://" ++ name) =
      some (ResourceContent.blob b) := by
  obtain ⟨h1, h2, h3⟩ := stateInv_runOps ops
  have hres := h3 name b h
  refine ⟨List.count_eq_one_of_mem h2 (mem_keys_of_mapGet hres), ?_⟩
  unfold readResource
  rw [hres]

/-- Witness for C1: one successful capture registered under the name `shot`
yields a state where `shot` maps to its bytes, has exactly one handle, and
the handle reads back those bytes. -/
theorem registry_names_have_unique_current_handles_witness :
    mapGet (runOps [Op.opTake ⟨none, some "/h", "/c"⟩
        ⟨1, true, Except.ok (), Except.ok "", Except.ok "IMG"⟩
        ⟨"D", some "shot", none⟩] initialState).screenshots "shot" = some "IMG" ∧
    ((keys (runOps [Op.opTake ⟨none, some "/h", "/c"⟩
        ⟨1, true, Except.ok (), Except.ok "", Except.ok "IMG"⟩
        ⟨"D", some "shot", none⟩] initialState).resources).count
          ("screenshot://" ++ "shot") = 1 ∧
     readResource (runOps [Op.opTake ⟨none, some "/h", "/c"⟩
        ⟨1, true, Except.ok (), Except.ok "", Except.ok "IMG"⟩
        ⟨"D", some "shot", none⟩] initialState) ("screenshot://" ++ "shot") =
       some (ResourceContent.blob "IMG")) :=
  ⟨by decide, registry_names_have_unique_current_handles _ "shot" "IMG" (by decide)⟩

/-- C2: from any reachable state, `register(name, b)` then `resolve(name)`
returns exactly `b` (both at the registry map and through the resource
handle); `register(name, b1)` then `register(name, b2)` then `resolve(name)`
returns `b2` (last-write-wins); and after the re-registration there is still
exactly one handle for the name, not a duplicate. -/
theorem register_resolve_last_write_wins (ops : List Op) (name b b1 b2 : String) :
    resolve (registerScreenshotResource name b (runOps ops initialState)) name = some b ∧
    readResource (registerScreenshotResource name b (runOps ops initialState))
        ("screenshot://" ++ name) = some (ResourceContent.blob b) ∧
    resolve (registerScreenshotResource name b2
        (registerScreenshotResource name b1 (runOps ops initialState))) name = some b2 ∧
    readResource (registerScreenshotResource name b2
        (registerScreenshotResource name b1 (runOps ops initialState)))
        ("screenshot://" ++ name) = some (ResourceContent.blob b2) ∧
    (keys (registerScreenshotResource name b2
        (registerScreenshotResource name b1 (runOps ops initialState))).resources).count
        ("screenshot://" ++ name) = 1 := by
  have hinv2 := stateInv_register name b2 (stateInv_register name b1 (stateInv_runOps ops))
  refine ⟨?_, ?_, ?_, ?_, ?_⟩
  · unfold resolve registerScreenshotResource
    exact mapGet_mapSet_self _ _ _
  · unfold readResource registerScreenshotResource
    dsimp only
    rw [mapGet_mapSet_self]
  · unfold resolve registerScreenshotResource
    exact mapGet_mapSet_self _ _ _
  · unfold readResource registerScreenshotResource
    dsimp only
    rw [mapGet_mapSet_self]
  · have hget : mapGet (registerScreenshotResource name b2
        (registerScreenshotResource name b1 (runOps ops initialState))).resources
        ("screenshot://" ++ name) = some (ResourceHandler.blob b2) := by
      unfold registerScreenshotResource
      exact mapGet_mapSet_self _ _ _
    exact List.count_eq_one_of_mem hinv2.2.1 (mem_keys_of_mapGet hget)

/-- C6: `delete_screenshot` on a name present in the registry removes the
entry, returns the success confirmation text, and `resolve` afterwards
yields no entry; on an absent name it returns the "not found" text and is a
no-op, leaving the whole state unchanged. -/
theorem delete_screenshot_present_absent (ops : List Op) (name : String) :
    (mapHas (runOps ops initialState).screenshots name = true →
      (delete_screenshot name (runOps ops initialState)).1 =
        ⟨[ContentItem.text ("Successfully deleted screenshot: " ++ name)]⟩ ∧
      resolve (delete_screenshot name (runOps ops initialState)).2.1 name = none) ∧
    (mapHas (runOps ops initialState).screenshots name = false →
      (delete_screenshot name (runOps ops initialState)).1 =
        ⟨[ContentItem.text ("Screenshot not found: " ++ name)]⟩ ∧
      (delete_screenshot name (runOps ops initialState)).2.1 = runOps ops initialState) := by
  obtain ⟨h1, h2, h3⟩ := stateInv_runOps ops
  constructor
  · intro hhas
    unfold delete_screenshot
    rw [if_pos hhas]
    refine ⟨rfl, ?_⟩
    unfold resolve
    dsimp only
    exact mapGet_mapDelete_self name h1
  · intro hhas
    unfold delete_screenshot
    rw [if_neg (by simp [hhas])]
    exact ⟨rfl, rfl⟩

/-- Witness for C6: deleting `shot` after one successful capture hits the
present branch; deleting `nope` in the initial state hits the absent one. -/
theorem delete_screenshot_present_absent_witness :
    (mapHas (runOps [Op.opTake ⟨none, some "/h", "/c"⟩
        ⟨1, true, Except.ok (), Except.ok "", Except.ok "IMG"⟩
        ⟨"D", some "shot", none⟩] initialState).screenshots "shot" = true ∧
      ((delete_screenshot "shot" (runOps [Op.opTake ⟨none, some "/h", "/c"⟩
          ⟨1, true, Except.ok (), Except.ok "", Except.ok "IMG"⟩
          ⟨"D", some "shot", none⟩] initialState)).1 =
        ⟨[ContentItem.text ("Successfully deleted screenshot: " ++ "shot")]⟩ ∧
       resolve (delete_screenshot "shot" (runOps [Op.opTake ⟨none, some "/h", "/c"⟩
          ⟨1, true, Except.ok (), Except.ok "", Except.ok "IMG"⟩
          ⟨"D", some "shot", none⟩] initialState)).2.1 "shot" = none)) ∧
    (mapHas (runOps [] initialState).screenshots "nope" = false ∧
      ((delete_screenshot "nope" (runOps [] initialState)).1 =
        ⟨[ContentItem.text ("Screenshot not found: " ++ "nope")]⟩ ∧
       (delete_screenshot "nope" (runOps [] initialState)).2.1 = runOps [] initialState)) :=
  ⟨⟨by decide, (delete_screenshot_present_absent [Op.opTake ⟨none, some "/h", "/c"⟩
        ⟨1, true, Except.ok (), Except.ok "", Except.ok "IMG"⟩
        ⟨"D", some "shot", none⟩] "shot").1 (by decide)⟩,
   ⟨by decide, (delete_screenshot_present_absent [] "nope").2 (by decide)⟩⟩

/-- C8: `delete_screenshot` only mutates the in-memory registry: it performs
no external (file-system or process) effect at all, and it leaves the
resource table untouched — the screenshot file on disk is an independent
artifact that deletion never deletes or modifies. -/
theorem delete_screenshot_no_fs_effects (st : ServerState) (name : String) :
    (delete_screenshot name st).2.2 = [] ∧
    (delete_screenshot name st).2.1.resources = st.resources := by
  unfold delete_screenshot
  split
  · exact ⟨rfl, rfl⟩
  · exact ⟨rfl, rfl⟩

/-- C10 counterexample: after `register("a","b1")` then `register("a","b2")`,
reading `screenshot://a` returns `b2` — the bytes of the most recent
registration — not `b1`, the bytes passed to the registration call that
created the handle.  So a later register call under the same name does
change what reading the handle returns, refuting the claim as stated. -/
theorem handle_read_after_reregistration_counterexample :
    readResource (registerScreenshotResource "a" "b2"
        (registerScreenshotResource "a" "b1" initialState)) "screenshot://a" =
      some (ResourceContent.blob "b2") ∧
    ResourceContent.blob "b2" ≠ ResourceContent.blob "b1" :=
  ⟨by decide, by decide⟩

/-- C10 (amended): a per-name handle's read returns the bytes of the most
recent registration under its name, and `delete_screenshot` never changes
the resource table, so an already-created handle keeps returning its
last-registered bytes even after the registry entry is deleted. -/
theorem handle_reads_latest_and_survives_delete (st : ServerState)
    (name b uri d : String) :
    readResource (registerScreenshotResource name b st) ("screenshot://" ++ name) =
      some (ResourceContent.blob b) ∧
    (mapGet st.resources uri = some (ResourceHandler.blob d) →
      readResource (delete_screenshot name st).2.1 uri = some (ResourceContent.blob d)) := by
  constructor
  · unfold readResource registerScreenshotResource
    dsimp only
    rw [mapGet_mapSet_self]
  · intro h
    have hres : (delete_screenshot name st).2.1.resources = st.resources := by
      unfold delete_screenshot
      split
      · rfl
      · rfl
    unfold readResource
    rw [hres, h]

/-- Witness for C10 (amended): with `a ↦ b1` registered, re-registering under
a fresh name reads back its own bytes, and after deleting `a` the stale
handle `screenshot://a` still returns `b1`. -/
theorem handle_reads_latest_and_survives_delete_witness :
    readResource (registerScreenshotResource "a" "b2"
        (registerScreenshotResource "a" "b1" initialState)) ("screenshot://" ++ "a") =
      some (ResourceContent.blob "b2") ∧
    mapGet (registerScreenshotResource "a" "b1" initialState).resources "screenshot://a" =
      some (ResourceHandler.blob "b1") ∧
    readResource (delete_screenshot "a"
        (registerScreenshotResource "a" "b1" initialState)).2.1 "screenshot://a" =
      some (ResourceContent.blob "b1") :=
  ⟨(handle_reads_latest_and_survives_delete
      (registerScreenshotResource "a" "b1" initialState) "a" "b2" "screenshot://a" "b1").1,
   by decide,
   (handle_reads_latest_and_survives_delete
      (registerScreenshotResource "a" "b1" initialState) "a" "b2" "screenshot://a" "b1").2
      (by decide)⟩

/-- C4: `take_screenshot` is all-or-nothing: whenever the capture command
fails or the output file cannot be read back, the response is a single
`Error taking screenshot: …` text and the server state — registry entries,
name list and resource handles alike — is left completely unchanged. -/
theorem take_screenshot_all_or_nothing (cfg : Config) (env : FsEnv) (args : TakeArgs)
    (st : ServerState)
    (h : isOkResult env.execResult = false ∨ isOkResult env.readFileResult = false) :
    (take_screenshot cfg env args st).2.1 = st ∧
    ∃ msg, (take_screenshot cfg env args st).1 =
      ⟨[ContentItem.text ("Error taking screenshot: " ++ msg)]⟩ := by
  unfold take_screenshot
  dsimp only
  split
  · rename_i e heq
    exact ⟨rfl, e, rfl⟩
  · split
    · rename_i e heq2
      exact ⟨rfl, e, rfl⟩
    · rename_i out heq2
      split
      · rename_i e heq3
        exact ⟨rfl, e, rfl⟩
      · rename_i dta heq3
        rcases h with h | h
        · rw [heq2] at h
          simp [isOkResult] at h
        · rw [heq3] at h
          simp [isOkResult] at h

/-- Witness for C4: a failing capture command against the initial state
leaves the state unchanged and yields an error text. -/
theorem take_screenshot_all_or_nothing_witness :
    isOkResult (⟨7, true, Except.ok (), Except.error "boom", Except.ok "X"⟩ : FsEnv).execResult
        = false ∧
    ((take_screenshot ⟨none, some "/h", "/c"⟩
        ⟨7, true, Except.ok (), Except.error "boom", Except.ok "X"⟩
        ⟨"nonexistent-device", none, none⟩ initialState).2.1 = initialState ∧
     ∃ msg, (take_screenshot ⟨none, some "/h", "/c"⟩
        ⟨7, true, Except.ok (), Except.error "boom", Except.ok "X"⟩
        ⟨"nonexistent-device", none, none⟩ initialState).1 =
          ⟨[ContentItem.text ("Error taking screenshot: " ++ msg)]⟩) :=
  ⟨rfl, take_screenshot_all_or_nothing ⟨none, some "/h", "/c"⟩
      ⟨7, true, Except.ok (), Except.error "boom", Except.ok "X"⟩
      ⟨"nonexistent-device", none, none⟩ initialState (Or.inl rfl)⟩

/-- C5: every tool handler is total over all oracle outcomes — external
command and file-system failures included — and always returns a
well-formed envelope headed by a text item.  No raw fault escapes any of
the five handlers to the caller. -/
theorem handlers_always_return_wellformed_envelopes
    (e1 e2 e3 : Except String String) (cfg : Config) (env : FsEnv) (args : TakeArgs)
    (st st2 st3 : ServerState) (deviceId name : String) :
    wellFormedEnvelope (get_booted_sim_id e1).1 = true ∧
    wellFormedEnvelope (get_all_simulators e2).1 = true ∧
    wellFormedEnvelope (take_screenshot cfg env args st).1 = true ∧
    wellFormedEnvelope (boot_simulator deviceId e3 st2).1 = true ∧
    wellFormedEnvelope (delete_screenshot name st3).1 = true := by
  refine ⟨?_, ?_, ?_, ?_, ?_⟩
  · unfold get_booted_sim_id
    cases e1 with
    | error m => rfl
    | ok s =>
        dsimp only
        split
        · rfl
        · rfl
  · unfold get_all_simulators
    cases e2 with
    | error m => rfl
    | ok s => rfl
  · unfold take_screenshot
    dsimp only
    split
    · rfl
    · split
      · rfl
      · split
        · rfl
        · rfl
  · unfold boot_simulator
    cases e3 with
    | error m => rfl
    | ok s => rfl
  · unfold delete_screenshot
    split
    · rfl
    · rfl

/-- C9 counterexample: with `outputPath = some ""` the executed capture
command does not embed the caller's (empty) path — `""` is falsy under the
JS `||` of source line 150, so the command embeds the derived default path
instead.  This refutes the claim's "for every outputPath string" half. -/
theorem commands_verbatim_interpolation_counterexample :
    ((take_screenshot ⟨none, some "/h", "/c"⟩
        ⟨1, true, Except.ok (), Except.ok "", Except.ok "IMG"⟩
        ⟨"D", some "shot", some ""⟩ initialState).2.2).head? ≠
      some (Effect.exec ("xcrun simctl io " ++ "D" ++ " screenshot \"" ++ "" ++ "\"")) ∧
    ((take_screenshot ⟨none, some "/h", "/c"⟩
        ⟨1, true, Except.ok (), Except.ok "", Except.ok "IMG"⟩
        ⟨"D", some "shot", some ""⟩ initialState).2.2).head? =
      some (Effect.exec
        "xcrun simctl io D screenshot \"/h/Downloads/ios-simulator-screenshots/shot.png\"") :=
  ⟨by decide, by decide⟩

/-- C9 (amended): the external commands are built by verbatim, unescaped
string interpolation: `boot_simulator` runs exactly
`xcrun simctl boot <deviceId>` for every caller-supplied `deviceId`, and
`take_screenshot` runs exactly
`xcrun simctl io <deviceId> screenshot "<outputPath>"` for every
caller-supplied `deviceId` and every nonempty `outputPath` — no validation,
quoting or escaping happens.  (An empty `outputPath` is falsy under JS `||`
and is replaced by the derived default path, itself interpolated verbatim.) -/
theorem commands_verbatim_interpolation (deviceId p : String)
    (execResult : Except String String) (st st2 : ServerState)
    (cfg : Config) (env : FsEnv) (name : Option String)
    (hdir : env.dirExists = true) (hp : p ≠ "") :
    (boot_simulator deviceId execResult st).2.2 =
      [Effect.exec ("xcrun simctl boot " ++ deviceId)] ∧
    ((take_screenshot cfg env ⟨deviceId, name, some p⟩ st2).2.2).head? =
      some (Effect.exec ("xcrun simctl io " ++ deviceId ++ " screenshot \"" ++ p ++ "\"")) := by
  have hp2 : (p == "") = false := beq_eq_false_iff_ne.mpr hp
  constructor
  · unfold boot_simulator
    cases execResult with
    | error e => rfl
    | ok s => rfl
  · rcases hex : env.execResult with e | out <;>
      rcases hrd : env.readFileResult with e2 | dta <;>
        simp [take_screenshot, jsOrElse, hdir, hex, hrd, hp2]

/-- Witness for C9: a device id that is not remotely a UUID — spaces, a
quote, a semicolon — and a nonempty output path reach both command
templates verbatim. -/
theorem commands_verbatim_interpolation_witness :
    (⟨1, true, Except.ok (), Except.error "failed", Except.ok "IMG"⟩ : FsEnv).dirExists
        = true ∧
    ("/tmp/o.png" : String) ≠ "" ∧
    ((boot_simulator "not a uuid\"; echo hi" (Except.error "boom") initialState).2.2 =
      [Effect.exec ("xcrun simctl boot " ++ "not a uuid\"; echo hi")] ∧
     ((take_screenshot ⟨none, some "/h", "/c"⟩
        ⟨1, true, Except.ok (), Except.error "failed", Except.ok "IMG"⟩
        ⟨"not a uuid\"; echo hi", none, some "/tmp/o.png"⟩ initialState).2.2).head? =
       some (Effect.exec ("xcrun simctl io " ++ "not a uuid\"; echo hi" ++
         " screenshot \"" ++ "/tmp/o.png" ++ "\""))) :=
  ⟨rfl, by decide, commands_verbatim_interpolation "not a uuid\"; echo hi" "/tmp/o.png"
      (Except.error "boom") initialState initialState ⟨none, some "/h", "/c"⟩
      ⟨1, true, Except.ok (), Except.error "failed", Except.ok "IMG"⟩ none rfl (by decide)⟩

theorem str_append_assoc (a b c : String) : a ++ b ++ c = a ++ (b ++ c) := by
  apply String.ext
  simp [String.data_append, List.append_assoc]

/-- C7 counterexample: with `outputPath = some ""` — a given output path —
the capture does not use `""` as the file path: the empty string is falsy
under the JS `||` of source line 150, so the program writes and reads back
the derived default path instead, refuting the claim's "when outputPath is
given it is used as the file path" at this concrete input. -/
theorem take_screenshot_empty_outputPath_counterexample :
    (take_screenshot ⟨none, some "/h", "/c"⟩
        ⟨1, true, Except.ok (), Except.ok "", Except.ok "IMG"⟩
        ⟨"D", some "shot", some ""⟩ initialState).2.2 =
      [Effect.exec
         "xcrun simctl io D screenshot \"/h/Downloads/ios-simulator-screenshots/shot.png\"",
       Effect.readFile "/h/Downloads/ios-simulator-screenshots/shot.png"] ∧
    Effect.readFile "" ∉ (take_screenshot ⟨none, some "/h", "/c"⟩
        ⟨1, true, Except.ok (), Except.ok "", Except.ok "IMG"⟩
        ⟨"D", some "shot", some ""⟩ initialState).2.2 ∧
    ("/h/Downloads/ios-simulator-screenshots/shot.png" : String) ≠ "" :=
  ⟨by decide, by decide, by decide⟩

/-- C7 (amended): with no `name` and no `outputPath`, a successful capture
registers the screenshot under `screenshot-<Date.now()>` (with its resource
handle) and targets the file `<resource-dir>/screenshot-<timestamp>.png`; an
explicit nonempty `outputPath` is used verbatim as the file path, with its
parent directory created recursively when absent (an empty `outputPath` is
falsy under JS `||` and falls back to the default path like an omitted one);
and `<resource-dir>` is `SCREENSHOT_RESOURCE_DIR` from the environment or
else `<home>/Downloads/ios-simulator-screenshots`. -/
theorem take_screenshot_naming_and_paths (cfg : Config) (env : FsEnv) (st : ServerState)
    (deviceId p out dta : String) :
    (env.dirExists = true → env.execResult = Except.ok out →
     env.readFileResult = Except.ok dta →
      (mapGet (take_screenshot cfg env ⟨deviceId, none, none⟩ st).2.1.screenshots
          ("screenshot-" ++ toString env.now) = some dta ∧
       mapGet (take_screenshot cfg env ⟨deviceId, none, none⟩ st).2.1.resources
          ("screenshot://" ++ ("screenshot-" ++ toString env.now)) =
            some (ResourceHandler.blob dta) ∧
       (take_screenshot cfg env ⟨deviceId, none, none⟩ st).2.2 =
         [Effect.exec ("xcrun simctl io " ++ deviceId ++ " screenshot \"" ++
            (SCREENSHOT_RESOURCE_DIR cfg ++ "/" ++
              ("screenshot-" ++ toString env.now ++ ".png")) ++ "\""),
          Effect.readFile (SCREENSHOT_RESOURCE_DIR cfg ++ "/" ++
              ("screenshot-" ++ toString env.now ++ ".png"))])) ∧
    (env.dirExists = false → env.mkdirResult = Except.ok () →
     env.execResult = Except.ok out → env.readFileResult = Except.ok dta → p ≠ "" →
      (take_screenshot cfg env ⟨deviceId, none, some p⟩ st).2.2 =
        [Effect.mkdirRecursive (dirname p),
         Effect.exec ("xcrun simctl io " ++ deviceId ++ " screenshot \"" ++ p ++ "\""),
         Effect.readFile p]) ∧
    (∀ d home cwd, d ≠ "" → SCREENSHOT_RESOURCE_DIR ⟨some d, home, cwd⟩ = d) ∧
    (∀ home cwd, home ≠ "" → SCREENSHOT_RESOURCE_DIR ⟨none, some home, cwd⟩ =
      home ++ "/Downloads/ios-simulator-screenshots") := by
  have hfile : ("screenshot-" ++ toString env.now ++ ".png") ≠ "" :=
    append_ne_empty_of_right (by decide)
  have hpath : pathJoinList [SCREENSHOT_RESOURCE_DIR cfg,
      "screenshot-" ++ toString env.now ++ ".png"] =
      SCREENSHOT_RESOURCE_DIR cfg ++ "/" ++ ("screenshot-" ++ toString env.now ++ ".png") :=
    pathJoin_two _ _ (resource_dir_ne_empty cfg) hfile
  refine ⟨?_, ?_, ?_, ?_⟩
  · intro h1 h2 h3
    simp only [take_screenshot, h1, h2, h3, if_true, jsOrElse,
      hpath, registerScreenshotResource]
    refine ⟨mapGet_mapSet_self _ _ _, mapGet_mapSet_self _ _ _, ?_⟩
    simp
  · intro h0 h1 h2 h3 hp
    have hp2 : (p == "") = false := beq_eq_false_iff_ne.mpr hp
    simp [take_screenshot, jsOrElse, hp2, h0, h1, h2, h3]
  · intro d home cwd hd
    have hd2 : (d == "") = false := beq_eq_false_iff_ne.mpr hd
    simp [SCREENSHOT_RESOURCE_DIR, jsOrElse, hd2]
  · intro home cwd hh
    have hh2 : (home == "") = false := beq_eq_false_iff_ne.mpr hh
    simp [SCREENSHOT_RESOURCE_DIR, jsOrElse, hh2, pathJoinList, List.filter, joinSegs]
    rw [str_append_assoc]
    exact congrArg (fun z => home ++ z) (by decide)

/-- Witness for C7: a successful capture with no name and no output path at
`Date.now() = 42` registers `screenshot-42`; an explicit output path is used
verbatim with its missing parent created; the directory resolution picks the
environment override when set and the home-based default otherwise. -/
theorem take_screenshot_naming_and_paths_witness :
    mapGet (take_screenshot ⟨none, some "/h", "/c"⟩
        ⟨42, true, Except.ok (), Except.ok "", Except.ok "IMG"⟩
        ⟨"D", none, none⟩ initialState).2.1.screenshots
      ("screenshot-" ++ toString (42 : Nat)) = some "IMG" ∧
    ("/tmp/out/shot.png" : String) ≠ "" ∧
    (take_screenshot ⟨none, some "/h", "/c"⟩
        ⟨42, false, Except.ok (), Except.ok "", Except.ok "IMG"⟩
        ⟨"D", none, some "/tmp/out/shot.png"⟩ initialState).2.2 =
      [Effect.mkdirRecursive (dirname "/tmp/out/shot.png"),
       Effect.exec ("xcrun simctl io " ++ "D" ++ " screenshot \"" ++ "/tmp/out/shot.png"
         ++ "\""),
       Effect.readFile "/tmp/out/shot.png"] ∧
    SCREENSHOT_RESOURCE_DIR ⟨some "/srv/caps", some "/h", "/c"⟩ = "/srv/caps" ∧
    SCREENSHOT_RESOURCE_DIR ⟨none, some "/h", "/c"⟩ =
      "/h" ++ "/Downloads/ios-simulator-screenshots" :=
  ⟨((take_screenshot_naming_and_paths ⟨none, some "/h", "/c"⟩
      ⟨42, true, Except.ok (), Except.ok "", Except.ok "IMG"⟩ initialState
      "D" "/tmp/out/shot.png" "" "IMG").1 rfl rfl rfl).1,
   by decide,
   (take_screenshot_naming_and_paths ⟨none, some "/h", "/c"⟩
      ⟨42, false, Except.ok (), Except.ok "", Except.ok "IMG"⟩ initialState
      "D" "/tmp/out/shot.png" "" "IMG").2.1 rfl rfl rfl rfl (by decide),
   (take_screenshot_naming_and_paths ⟨none, some "/h", "/c"⟩
      ⟨42, true, Except.ok (), Except.ok "", Except.ok "IMG"⟩ initialState
      "D" "/tmp/out/shot.png" "" "IMG").2.2.1 "/srv/caps" (some "/h") "/c" (by decide),
   (take_screenshot_naming_and_paths ⟨none, some "/h", "/c"⟩
      ⟨42, true, Except.ok (), Except.ok "", Except.ok "IMG"⟩ initialState
      "D" "/tmp/out/shot.png" "" "IMG").2.2.2 "/h" "/c" (by decide)⟩

/-- C3: `get_booted_sim_id` scans the listing line by line: the sample line
`iPhone 15 (ABCD-1234-EF) (Booted)` yields text containing `iPhone 15` and
`ABCD-1234-EF`; a `Booted` line whose UUID group match fails is skipped, not
fatal; when no line yields a match the result is the "No booted simulator
found." message, not an error; and the first line that contains `Booted` and
has a matching hex-and-hyphen parenthesis group (after any number of
non-matching lines) determines the output, which carries the text before
the first parenthesis (trimmed) as the device name together with the id. -/
theorem get_booted_sim_id_parsing :
    ((get_booted_sim_id (Except.ok
        ("== Devices ==\n-- iOS 17.5 --\n    iPhone 15 (ABCD-1234-EF) (Booted)\n    iPad Air (1111-2222) (Shutdown)"))).1 =
      ⟨[ContentItem.text "Booted Simulator: iPhone 15\nUUID: ABCD-1234-EF"]⟩ ∧
     containsStr "Booted Simulator: iPhone 15\nUUID: ABCD-1234-EF" "iPhone 15" = true ∧
     containsStr "Booted Simulator: iPhone 15\nUUID: ABCD-1234-EF" "ABCD-1234-EF" = true) ∧
    (∀ line rest, containsStr line "Booted" = true → findUUIDGroup line.data = none →
      scanLines (line :: rest) = scanLines rest) ∧
    (∀ stdout, scanLines (splitLines stdout) = none →
      (get_booted_sim_id (Except.ok stdout)).1 =
        ⟨[ContentItem.text "No booted simulator found."]⟩) ∧
    (∀ line deviceId, containsStr line "Booted" = true →
      findUUIDGroup line.data = some deviceId →
      ∀ pre rest, (∀ l ∈ pre, bootedLineResult l = none) →
        scanLines (pre ++ line :: rest) =
          some ("Booted Simulator: " ++ jsTrim (beforeFirstParen line) ++
            "\nUUID: " ++ deviceId)) := by
  refine ⟨⟨by decide, by decide, by decide⟩, ?_, ?_, ?_⟩
  · intro line rest h1 h2
    have hb : bootedLineResult line = none := by
      unfold bootedLineResult
      rw [if_pos h1, h2]
    conv_lhs => rw [scanLines]
    rw [hb]
  · intro stdout h
    unfold get_booted_sim_id
    dsimp only
    rw [h]
  · intro line deviceId h1 h2 pre rest
    have hb : bootedLineResult line =
        some ("Booted Simulator: " ++ jsTrim (beforeFirstParen line) ++
          "\nUUID: " ++ deviceId) := by
      unfold bootedLineResult
      rw [if_pos h1, h2]
    induction pre with
    | nil =>
        intro _
        rw [List.nil_append]
        conv_lhs => rw [scanLines]
        rw [hb]
    | cons q qs ih =>
        intro hall
        have hq : bootedLineResult q = none := hall q (List.mem_cons_self q qs)
        have hall2 : ∀ l ∈ qs, bootedLineResult l = none := fun l hl =>
          hall l (List.mem_cons_of_mem q hl)
        rw [List.cons_append]
        conv_lhs => rw [scanLines]
        rw [hq]
        exact ih hall2

/-- Witness for C3: a `Booted` line whose parenthesis groups fail the UUID
pattern is skipped in favour of the next line; a prefixed non-matching line
does not disturb the first real match; two plain lines produce the
"No booted simulator found." message. -/
theorem get_booted_sim_id_parsing_witness :
    scanLines ["iPad (Booted)", "iPhone 15 (ABCD-1234-EF) (Booted)"] =
      scanLines ["iPhone 15 (ABCD-1234-EF) (Booted)"] ∧
    scanLines (["== Devices =="] ++ "iPhone 15 (ABCD-1234-EF) (Booted)" :: []) =
      some ("Booted Simulator: " ++
        jsTrim (beforeFirstParen "iPhone 15 (ABCD-1234-EF) (Booted)") ++
        "\nUUID: " ++ "ABCD-1234-EF") ∧
    (get_booted_sim_id (Except.ok "a\nb")).1 =
      ⟨[ContentItem.text "No booted simulator found."]⟩ :=
  ⟨get_booted_sim_id_parsing.2.1 "iPad (Booted)"
      ["iPhone 15 (ABCD-1234-EF) (Booted)"] (by decide) (by decide),
   get_booted_sim_id_parsing.2.2.2 "iPhone 15 (ABCD-1234-EF) (Booted)" "ABCD-1234-EF"
      (by decide) (by decide) ["== Devices =="] [] (by decide),
   get_booted_sim_id_parsing.2.2.1 "a\nb" (by decide)⟩

end IosSimulatorMcp
